import Mathlib

/-!
Verification of the BRS-Booking core: the booking data model, the
filter/sort/validation engine (src/utils/bookingUtils.js,
src/components/BookingsPage/BookingsPage.js), the mock data-access layer
(src/services/bookingService.js) and the session controller
(src/hooks/useBookings.js).

Modelling conventions:
* JavaScript strings are Lean String values; case-insensitive operations
  go through an ASCII lowercase map, matching toLowerCase on the data
  that occurs in this application.
* Calendar dates are ISO YYYY-MM-DD strings.  The JavaScript code turns
  them into Date objects (UTC midnight timestamps) before comparing; we
  parse them into a civil day number (an Int).  A string that does not
  parse yields none, mirroring an Invalid Date whose NaN timestamp makes
  every comparison false.
* The random 5% failure roll of the mock service is an explicit Bool
  argument (the outcome of shouldSimulateError); localStorage is an
  explicit List Booking threaded through every operation, with each
  operation returning the possibly-updated store together with its
  result.  An operation that throws before reaching saveBookings returns
  the store unchanged.
* Array.prototype.sort is stable (ECMAScript 2019); a stable sort's
  output is determined by the comparison function, so it is modelled by
  a stable insertion sort parameterised by the comparator of
  sortedBookings.
-/

/-! ### Character and string helpers -/

/-- ASCII lowercase of a character list, the model of String.toLowerCase
for the ASCII data handled by the application. -/
def lowerL (l : List Char) : List Char := l.map Char.toLower

/-- Lexicographic strict comparison of character lists by code point,
the model of the JavaScript string less-than operator. -/
def chListLt : List Char → List Char → Bool
  | [], [] => false
  | [], _ :: _ => true
  | _ :: _, [] => false
  | a :: as, b :: bs => a.val < b.val || (a = b && chListLt as bs)

/-- Whether the second list starts the first, helper for substring search. -/
def startsWithL : List Char → List Char → Bool
  | _, [] => true
  | [], _ :: _ => false
  | c :: s, p :: ps => c = p && startsWithL s ps

/-- Whether pat occurs contiguously inside s, the model of
String.prototype.includes. -/
def containsSub : List Char → List Char → Bool
  | [], pat => startsWithL [] pat
  | c :: t, pat => startsWithL (c :: t) pat || containsSub t pat

/-- Case-insensitive substring test: the model of
a.toLowerCase().includes(b.toLowerCase()). -/
def includesCI (s pat : String) : Bool :=
  containsSub (lowerL s.data) (lowerL pat.data)

/-- Split a character list on every occurrence of a separator character,
the model of String.prototype.split. The result is always non-empty. -/
def splitOnChar (c : Char) : List Char → List (List Char)
  | [] => [[]]
  | x :: xs =>
    if x = c then [] :: splitOnChar c xs
    else
      match splitOnChar c xs with
      | [] => [[x]]
      | h :: t => (x :: h) :: t

/-- Whitespace trim of a character list at both ends, the model of
String.prototype.trim. -/
def trimL (l : List Char) : List Char :=
  ((l.dropWhile Char.isWhitespace).reverse.dropWhile Char.isWhitespace).reverse

/-- Decimal value of a digit list. -/
def digitsVal (l : List Char) : Nat :=
  l.foldl (fun a c => 10 * a + (c.toNat - 48)) 0

/-- Model of JavaScript parseInt on the strings arising here: reads the
leading run of decimal digits; none models NaN when there is no digit. -/
def jsParseInt (l : List Char) : Option Nat :=
  let ds := l.takeWhile Char.isDigit
  if ds.isEmpty then none else some (digitsVal ds)

/-- The character of a decimal digit. -/
def digitChar (k : Nat) : Char := Char.ofNat (48 + k)

/-- Decimal digit expansion of a natural number, most significant first,
accumulator form. -/
def natDigitsAux (n : Nat) (acc : List Char) : List Char :=
  if n < 10 then digitChar n :: acc
  else natDigitsAux (n / 10) (digitChar (n % 10) :: acc)
  termination_by n
  decreasing_by
    exact Nat.div_lt_self (by omega) (by omega)

/-- Decimal digit expansion of a natural number, most significant first. -/
def natDigits (n : Nat) : List Char := natDigitsAux n []

/-- Decimal rendering of a natural number as a string, the model of
JavaScript template interpolation of a number. -/
def natStr (n : Nat) : String := ⟨natDigits n⟩

/-! ### Calendar dates -/

/-- Day number of a civil date (days since 1970-01-01, Gregorian),
the standard days-from-civil computation; this is the UTC timestamp of
a parsed YYYY-MM-DD string divided by 86,400,000 ms. -/
def daysFromCivil (y : Int) (m d : Int) : Int :=
  let y' := if m ≤ 2 then y - 1 else y
  let era := (if 0 ≤ y' then y' else y' - 399) / 400
  let yoe := y' - era * 400
  let mp := if m > 2 then m - 3 else m + 9
  let doy := (153 * mp + 2) / 5 + d - 1
  let doe := yoe * 365 + yoe / 4 - yoe / 100 + doy
  era * 146097 + doe - 719468

/-- Parse an ISO YYYY-MM-DD string to its civil day number; none models
an Invalid Date (whose NaN timestamp compares false against anything). -/
def parseISODate (s : String) : Option Int :=
  match splitOnChar '-' s.data with
  | [y, m, d] =>
    if y ≠ [] && m ≠ [] && d ≠ [] &&
        y.all Char.isDigit && m.all Char.isDigit && d.all Char.isDigit &&
        1 ≤ digitsVal m && digitsVal m ≤ 12 && 1 ≤ digitsVal d && digitsVal d ≤ 31 then
      some (daysFromCivil (digitsVal y) (digitsVal m) (digitsVal d))
    else none
  | _ => none

/-- Strict less-than on date strings through Date objects: true only when
both sides are valid dates, since NaN comparisons are false. -/
def dateLtB (a b : String) : Bool :=
  match parseISODate a, parseISODate b with
  | some x, some y => x < y
  | _, _ => false

/-- Greater-or-equal on date strings through Date objects: true only when
both sides are valid dates, since NaN comparisons are false. -/
def dateGeB (a b : String) : Bool :=
  match parseISODate a, parseISODate b with
  | some x, some y => y ≤ x
  | _, _ => false

/-! ### Data model -/

/-- A booking record, the sole entity of the data model. -/
structure Booking where
  id : String
  customer : String
  vessel : String
  status : String
  startDate : String
  endDate : String
deriving DecidableEq, Repr

/-- The date-range part of a filter specification; empty string means no
constraint. -/
structure DateRange where
  start : String
  «end» : String
deriving DecidableEq, Repr

/-- A filter specification; empty string means no constraint. -/
structure Filters where
  customerName : String
  status : String
  dateRange : DateRange
deriving DecidableEq, Repr

/-! ### Filter engine (filterBookings in src/utils/bookingUtils.js) -/

/-- The per-booking predicate of filterBookings: each early return false
of the source callback is one of the nested conditionals. -/
def bookingMatches (filters : Filters) (booking : Booking) : Bool :=
  if filters.customerName ≠ "" &&
      !(includesCI booking.customer filters.customerName) then false
  else if filters.status ≠ "" && booking.status ≠ filters.status then false
  else if filters.dateRange.start ≠ "" && filters.dateRange.«end» ≠ "" &&
      (dateLtB booking.endDate filters.dateRange.start ||
        dateLtB filters.dateRange.«end» booking.startDate) then false
  else true

/-- Model of filterBookings: Array.prototype.filter with the callback
above. -/
def filterBookings (bookings : List Booking) (filters : Filters) : List Booking :=
  bookings.filter (bookingMatches filters)

/-! ### Validation engine (validateBookingForm in src/utils/bookingUtils.js) -/

/-- The booking form draft passed to validateBookingForm; absent fields
of the source object are the empty string. -/
structure BookingForm where
  customer : String
  vessel : String
  startDate : String
  endDate : String
deriving DecidableEq, Repr

/-- The errors object built by validateBookingForm: one optional message
per field. -/
structure FormErrors where
  customer : Option String
  vessel : Option String
  startDate : Option String
  endDate : Option String
deriving DecidableEq, Repr

/-- The result of validateBookingForm. -/
structure ValidationResult where
  isValid : Bool
  errors : FormErrors
deriving DecidableEq, Repr

/-- Model of validateBookingForm.  The ambient current day (new Date()
truncated to midnight) is the explicit today argument, as a civil day
number.  Each field of the errors object holds the last value assigned
to that key by the source: the date-logic checks overwrite the
required-field messages when both dates are present. -/
def validateBookingForm (today : Int) (formData : BookingForm) : ValidationResult :=
  let requiredCustomer : Option String :=
    if trimL formData.customer.data = [] then some "Customer name is required" else none
  let requiredVessel : Option String :=
    if trimL formData.vessel.data = [] then some "Vessel name is required" else none
  let bothDates := formData.startDate ≠ "" && formData.endDate ≠ ""
  let startErr : Option String :=
    if formData.startDate = "" then some "Start date is required"
    else if bothDates &&
        (match parseISODate formData.startDate with
         | some s => decide (s < today)
         | none => false) then some "Start date cannot be in the past"
    else none
  let endErr : Option String :=
    if formData.endDate = "" then some "End date is required"
    else if bothDates && dateGeB formData.startDate formData.endDate then
      some "End date must be after start date"
    else none
  let errs : FormErrors := ⟨requiredCustomer, requiredVessel, startErr, endErr⟩
  ⟨errs.customer.isNone && errs.vessel.isNone && errs.startDate.isNone && errs.endDate.isNone,
    errs⟩

/-! ### Mock data-access layer (src/services/bookingService.js) -/

/-- A creation draft as submitted by the booking form: the fields of
CreateBookingForm's formData.  status none models an absent property. -/
structure Draft where
  customer : String
  vessel : String
  status : Option String
  startDate : String
  endDate : String
deriving DecidableEq, Repr

/-- A partial update as submitted by the session controller: either a
single status change or a full set of form fields; none leaves the
stored field unchanged (shallow object-spread merge). -/
structure Updates where
  customer : Option String
  vessel : Option String
  status : Option String
  startDate : Option String
  endDate : Option String
deriving DecidableEq, Repr

/-- Shallow merge of an update into a stored record, the model of
spreading updates over the existing booking.  The id is not a form
field, so it always survives. -/
def mergeBooking (b : Booking) (u : Updates) : Booking :=
  { id := b.id
    customer := u.customer.getD b.customer
    vessel := u.vessel.getD b.vessel
    status := u.status.getD b.status
    startDate := u.startDate.getD b.startDate
    endDate := u.endDate.getD b.endDate }

/-- Numeric suffix of a booking id: parseInt(id.split("-")[1]).  none
models NaN (missing second component or no digits). -/
def jsSuffix (s : String) : Option Nat :=
  match (splitOnChar '-' s.data)[1]? with
  | some l => jsParseInt l
  | none => none

/-- The reduce over currentBookings computing the largest numeric id
suffix with floor 1000; a NaN comparison leaves the accumulator. -/
def computeMaxId (store : List Booking) : Nat :=
  store.foldl
    (fun max b =>
      match jsSuffix b.id with
      | some num => if num > max then num else max
      | none => max)
    1000

/-- The status stored by createBooking: bookingData.status || "pending",
so any falsy status (absent or empty string) becomes pending. -/
def statusOrPending : Option String → String
  | none => "pending"
  | some s => if s = "" then "pending" else s

/-- Model of createBooking.  The fail flag is the outcome of the 5%
shouldSimulateError roll; on failure the function throws before touching
the store.  On success the new record is appended and saved. -/
def createBooking (fail : Bool) (store : List Booking) (d : Draft) :
    List Booking × Except String Booking :=
  if fail then (store, .error "Failed to create booking. Please try again.")
  else
    let maxId := computeMaxId store
    let newBooking : Booking :=
      { id := "BK-" ++ natStr (maxId + 1)
        customer := d.customer
        vessel := d.vessel
        status := statusOrPending d.status
        startDate := d.startDate
        endDate := d.endDate }
    (store ++ [newBooking], .ok newBooking)

/-- Model of updateBooking: findIndex by id, throw "Booking not found"
when absent, otherwise merge, write back at the same index, save. -/
def updateBooking (fail : Bool) (store : List Booking) (id : String) (u : Updates) :
    List Booking × Except String Booking :=
  if fail then (store, .error "Failed to update booking. Please try again.")
  else
    match store.findIdx? (fun b => b.id = id) with
    | none => (store, .error "Booking not found")
    | some i =>
      match store[i]? with
      | none => (store, .error "Booking not found")
      | some b =>
        let updated := mergeBooking b u
        (store.set i updated, .ok updated)

/-- Model of deleteBooking: filter out the id, throw "Booking not found"
when nothing was removed, otherwise save the filtered collection. -/
def deleteBooking (fail : Bool) (store : List Booking) (id : String) :
    List Booking × Except String Unit :=
  if fail then (store, .error "Failed to delete booking. Please try again.")
  else
    let updated := store.filter (fun b => b.id ≠ id)
    if updated.length = store.length then (store, .error "Booking not found")
    else (updated, .ok ())

/-- Model of getBookings: delay, failure roll, then read the store. -/
def getBookings (fail : Bool) (store : List Booking) :
    List Booking × Except String (List Booking) :=
  if fail then (store, .error "Failed to fetch bookings. Please try again.")
  else (store, .ok store)

/-! ### Session controller (src/hooks/useBookings.js) -/

/-- The result object returned by the mutating controller operations. -/
structure HookResult where
  success : Bool
  error : Option String
  booking : Option Booking
deriving DecidableEq, Repr

/-- Model of addBooking in useBookings: calls the service, appends the
returned record to the local collection on success, and converts any
rejection into a success:false result instead of rethrowing. -/
def hookAddBooking (fail : Bool) (store all : List Booking) (d : Draft) :
    List Booking × List Booking × HookResult :=
  match createBooking fail store d with
  | (store', .ok b) => (store', all ++ [b], ⟨true, none, some b⟩)
  | (store', .error e) => (store', all, ⟨false, some e, none⟩)

/-- Model of deleteBooking in useBookings: on success removes the id
from the local collection; failures become success:false results. -/
def hookDeleteBooking (fail : Bool) (store all : List Booking) (id : String) :
    List Booking × List Booking × HookResult :=
  match deleteBooking fail store id with
  | (store', .ok _) => (store', all.filter (fun b => b.id ≠ id), ⟨true, none, none⟩)
  | (store', .error e) => (store', all, ⟨false, some e, none⟩)

/-- Model of updateBookingStatus in useBookings: a status-only service
update, replacing the matching local record on success. -/
def hookUpdateBookingStatus (fail : Bool) (store all : List Booking)
    (id newStatus : String) : List Booking × List Booking × HookResult :=
  match updateBooking fail store id ⟨none, none, some newStatus, none, none⟩ with
  | (store', .ok b) =>
    (store', all.map (fun x => if x.id = id then b else x), ⟨true, none, some b⟩)
  | (store', .error e) => (store', all, ⟨false, some e, none⟩)

/-- Model of updateBooking in useBookings: a full-field service update,
replacing the matching local record on success. -/
def hookUpdateBooking (fail : Bool) (store all : List Booking)
    (id : String) (u : Updates) : List Booking × List Booking × HookResult :=
  match updateBooking fail store id u with
  | (store', .ok b) =>
    (store', all.map (fun x => if x.id = id then b else x), ⟨true, none, some b⟩)
  | (store', .error e) => (store', all, ⟨false, some e, none⟩)

/-! ### Sort engine (BookingsPage.js: handleSort and sortedBookings) -/

/-- The sortable columns of the bookings table. -/
inductive Column where
  | id
  | customer
  | vessel
  | status
  | startDate
  | endDate
  | duration
deriving DecidableEq, Repr

/-- A sort direction. -/
inductive Direction where
  | asc
  | desc
deriving DecidableEq, Repr

/-- The sortConfig state of BookingsPage; null column or direction means
no sort. -/
structure SortConfig where
  column : Option Column
  direction : Option Direction
deriving DecidableEq, Repr

/-- Model of handleSort: the three-state cycle on a column click.  The
source starts from direction asc, flips to desc on a repeated click of
an asc-sorted column, and resets to null/null after desc. -/
def handleSort (cfg : SortConfig) (col : Column) : SortConfig :=
  if cfg.column = some col then
    if cfg.direction = some .asc then ⟨some col, some .desc⟩
    else if cfg.direction = some .desc then ⟨none, none⟩
    else ⟨some col, some .asc⟩
  else ⟨some col, some .asc⟩

/-- Strict order on optional numeric keys: a NaN side compares false. -/
def optNatLt : Option Nat → Option Nat → Bool
  | some x, some y => x < y
  | _, _ => false

/-- Strict order on optional integer keys: a NaN side compares false. -/
def optIntLt : Option Int → Option Int → Bool
  | some x, some y => x < y
  | _, _ => false

/-- The id sort key: strip non-digit characters and parseInt. -/
def idSortKey (b : Booking) : Option Nat :=
  jsParseInt (b.id.data.filter Char.isDigit)

/-- The duration sort key: whole-day difference of the parsed dates,
ceil((end - start) / 86,400,000); none models NaN. -/
def durationKey (b : Booking) : Option Int :=
  match parseISODate b.endDate, parseISODate b.startDate with
  | some e, some s => some (e - s)
  | _, _ => none

/-- The column-specific strict comparison aValue < bValue of the
sortedBookings comparator. -/
def colLt (c : Column) (a b : Booking) : Bool :=
  match c with
  | .id => optNatLt (idSortKey a) (idSortKey b)
  | .customer => chListLt (lowerL a.customer.data) (lowerL b.customer.data)
  | .vessel => chListLt (lowerL a.vessel.data) (lowerL b.vessel.data)
  | .status => chListLt (lowerL a.status.data) (lowerL b.status.data)
  | .startDate => optIntLt (parseISODate a.startDate) (parseISODate b.startDate)
  | .endDate => optIntLt (parseISODate a.endDate) (parseISODate b.endDate)
  | .duration => optIntLt (durationKey a) (durationKey b)

/-- Whether the sortedBookings comparator orders a strictly before b:
comparator value -1, i.e. aValue < bValue under asc and aValue > bValue
under desc. -/
def cmpBefore (c : Column) (d : Direction) (a b : Booking) : Bool :=
  match d with
  | .asc => colLt c a b
  | .desc => colLt c b a

/-- Whether the sortedBookings comparator returns 0 on a and b: neither
value is strictly less than the other (independent of direction). -/
def colEq (c : Column) (a b : Booking) : Bool :=
  !colLt c a b && !colLt c b a

/-- Insert x into l, after every element the comparator places strictly
before x: the insertion step of a stable sort. -/
def orderedInsert (lt : Booking → Booking → Bool) (x : Booking) :
    List Booking → List Booking
  | [] => [x]
  | y :: l => if lt y x then y :: orderedInsert lt x l else x :: y :: l

/-- Stable insertion sort by a strictly-before comparator; extensionally
the output of the stable Array.prototype.sort under that comparator. -/
def insSort (lt : Booking → Booking → Bool) : List Booking → List Booking
  | [] => []
  | x :: l => orderedInsert lt x (insSort lt l)

/-- Model of the sortedBookings memo: no sort returns the collection as
is; otherwise a stable sort of a copy by the column comparator. -/
def sortedBookings (cfg : SortConfig) (bookings : List Booking) : List Booking :=
  match cfg.column, cfg.direction with
  | some c, some d => insSort (cmpBefore c d) bookings
  | _, _ => bookings

/-! ### Seed fixture (mockBookings in src/data/mockBookings.js) -/

/-- The six-record seed fixture. -/
def mockBookings : List Booking :=
  [ ⟨"BK-1001", "Acme Wind", "Nordic Star", "confirmed", "2026-01-10", "2026-01-22"⟩,
    ⟨"BK-1002", "BlueWave", "Sea Finch", "pending", "2026-02-03", "2026-02-05"⟩,
    ⟨"BK-1003", "Oceanix", "Asteria", "cancelled", "2026-01-28", "2026-01-31"⟩,
    ⟨"BK-1004", "Maritime Solutions", "Ocean Pioneer", "confirmed", "2026-02-15", "2026-02-20"⟩,
    ⟨"BK-1005", "Deep Sea Logistics", "Blue Horizon", "pending", "2026-03-01", "2026-03-10"⟩,
    ⟨"BK-1006", "Coastal Transport", "Wave Rider", "cancelled", "2026-02-25", "2026-02-28"⟩ ]

/-! ### C1: filter characterization -/

/-- The retention predicate exactly as the specification words it: all
three conditions hold, each guarded by its fields being non-empty. -/
def retainSpec (f : Filters) (b : Booking) : Bool :=
  (f.customerName = "" || includesCI b.customer f.customerName) &&
  (f.status = "" || b.status = f.status) &&
  (!(f.dateRange.start ≠ "" && f.dateRange.«end» ≠ "") ||
    !(dateLtB b.endDate f.dateRange.start || dateLtB f.dateRange.«end» b.startDate))

theorem bookingMatches_eq_retainSpec (f : Filters) (b : Booking) :
    bookingMatches f b = retainSpec f b := by
  unfold bookingMatches retainSpec
  by_cases h1 : f.customerName = "" <;>
  by_cases h2 : includesCI b.customer f.customerName = true <;>
  by_cases h3 : f.status = "" <;>
  by_cases h4 : b.status = f.status <;>
  by_cases h5 : f.dateRange.start = "" <;>
  by_cases h6 : f.dateRange.«end» = "" <;>
  by_cases h7 : dateLtB b.endDate f.dateRange.start = true <;>
  by_cases h8 : dateLtB f.dateRange.«end» b.startDate = true <;>
  simp_all

/-- C1: filterBookings retains a booking iff the customer-name,
status and complete-date-range conditions of the specification all hold,
and the retained bookings keep their original relative order. -/
theorem filterBookings_retains_iff_and_ordered (bs : List Booking) (f : Filters) :
    filterBookings bs f = bs.filter (retainSpec f) ∧
      (filterBookings bs f).Sublist bs := by
  constructor
  · exact List.filter_congr fun b _ => bookingMatches_eq_retainSpec f b
  · exact List.filter_sublist bs

/-! ### C6: a one-sided date range filters nothing -/

/-- C6: when exactly one (indeed, at least one) side of the date range is
empty, filtering behaves as if there were no date constraint at all, and
the concrete one-sided range start 2026-01-01 removes nothing from the
six-record seed fixture. -/
theorem filter_one_sided_range_noop (bs : List Booking) (f : Filters)
    (h : f.dateRange.start = "" ∨ f.dateRange.«end» = "") :
    filterBookings bs f = filterBookings bs { f with dateRange := ⟨"", ""⟩ } ∧
      filterBookings mockBookings ⟨"", "", ⟨"2026-01-01", ""⟩⟩ = mockBookings := by
  constructor
  · apply List.filter_congr
    intro b _
    unfold bookingMatches
    rcases h with h | h <;> simp [h]
  · decide

/-- Witness for C6 at the concrete seed fixture and one-sided filter. -/
theorem filter_one_sided_range_noop_witness :
    filterBookings mockBookings ⟨"", "", ⟨"2026-01-01", ""⟩⟩ =
      filterBookings mockBookings ⟨"", "", ⟨"", ""⟩⟩ ∧
    filterBookings mockBookings ⟨"", "", ⟨"2026-01-01", ""⟩⟩ = mockBookings :=
  ⟨(filter_one_sided_range_noop mockBookings ⟨"", "", ⟨"2026-01-01", ""⟩⟩
      (Or.inr rfl)).1,
   (filter_one_sided_range_noop mockBookings ⟨"", "", ⟨"2026-01-01", ""⟩⟩
      (Or.inr rfl)).2⟩

/-! ### C8: the three-state sort-cycling machine -/

/-- C8: a click on a new column sorts it ascending; a repeated click on
an ascending column flips to descending; a repeated click on a
descending column clears the sort. -/
theorem handleSort_cycle (cfg : SortConfig) (col : Column) :
    (cfg.column ≠ some col → handleSort cfg col = ⟨some col, some .asc⟩) ∧
    (cfg.column = some col → cfg.direction = some .asc →
      handleSort cfg col = ⟨some col, some .desc⟩) ∧
    (cfg.column = some col → cfg.direction = some .desc →
      handleSort cfg col = ⟨none, none⟩) := by
  refine ⟨fun h => ?_, fun h hd => ?_, fun h hd => ?_⟩
  · unfold handleSort
    simp [h]
  · unfold handleSort
    simp [h, hd]
  · unfold handleSort
    simp [h, hd]

/-- Witness for C8: the cycle at the status column from the unsorted
state. -/
theorem handleSort_cycle_witness :
    handleSort ⟨none, none⟩ .status = ⟨some .status, some .asc⟩ ∧
    handleSort ⟨some .status, some .asc⟩ .status = ⟨some .status, some .desc⟩ ∧
    handleSort ⟨some .status, some .desc⟩ .status = ⟨none, none⟩ :=
  ⟨(handleSort_cycle ⟨none, none⟩ .status).1 (by decide),
   (handleSort_cycle ⟨some .status, some .asc⟩ .status).2.1 rfl rfl,
   (handleSort_cycle ⟨some .status, some .desc⟩ .status).2.2 rfl rfl⟩

/-! ### C2: validation round-trip -/

/-- C2: with the current calendar day on or before 2030-01-05, the
reversed-dates draft yields exactly one error, keyed endDate, with the
message "End date must be after start date"; the properly ordered draft
is valid; equal (valid) dates always produce that endDate error; and the
rules are collected independently, an all-empty draft carrying all four
required-field errors at once. -/
theorem validateBookingForm_roundtrip (today d5 : Int)
    (h5 : parseISODate "2030-01-05" = some d5) (hle : today ≤ d5) :
    validateBookingForm today ⟨"A", "B", "2030-01-10", "2030-01-05"⟩ =
      ⟨false, ⟨none, none, none, some "End date must be after start date"⟩⟩ ∧
    validateBookingForm today ⟨"A", "B", "2030-01-05", "2030-01-10"⟩ =
      ⟨true, ⟨none, none, none, none⟩⟩ ∧
    (∀ (d : String) (x : Int), parseISODate d = some x →
      (validateBookingForm today ⟨"A", "B", d, d⟩).errors.endDate =
        some "End date must be after start date") ∧
    validateBookingForm today ⟨"", "", "", ""⟩ =
      ⟨false, ⟨some "Customer name is required", some "Vessel name is required",
        some "Start date is required", some "End date is required"⟩⟩ := by
  have e5 : parseISODate "2030-01-05" = some 21919 := by decide
  have hd5 : d5 = 21919 := by
    rw [h5] at e5
    exact Option.some.inj e5
  have htoday : today ≤ 21919 := hd5 ▸ hle
  have hA : trimL ['A'] ≠ [] := by decide
  have hB : trimL ['B'] ≠ [] := by decide
  refine ⟨?_, ?_, ?_, ?_⟩
  · have e10 : parseISODate "2030-01-10" = some 21924 := by decide
    have hlt : (decide ((21924 : Int) < today)) = false := decide_eq_false (by omega)
    have hge : dateGeB "2030-01-10" "2030-01-05" = true := by decide
    simp [validateBookingForm, e10, hlt, hA, hB, hge]
  · have hlt : (decide ((21919 : Int) < today)) = false := decide_eq_false (by omega)
    have hge : dateGeB "2030-01-05" "2030-01-10" = false := by decide
    simp [validateBookingForm, e5, hlt, hA, hB, hge]
  · intro d x hp
    have hne : d ≠ "" := by
      intro h
      rw [h] at hp
      simp [parseISODate, splitOnChar] at hp
    have hge : dateGeB d d = true := by
      unfold dateGeB
      rw [hp]
      simp
    simp [validateBookingForm, hne, hge]
  · simp [validateBookingForm, trimL]

/-- Witness for C2 with today taken as 2026-10-11 (day number 20737),
which is on or before 2030-01-05. -/
theorem validateBookingForm_roundtrip_witness :
    parseISODate "2030-01-05" = some 21919 ∧ (20737 : Int) ≤ 21919 ∧
    validateBookingForm 20737 ⟨"A", "B", "2030-01-10", "2030-01-05"⟩ =
      ⟨false, ⟨none, none, none, some "End date must be after start date"⟩⟩ ∧
    validateBookingForm 20737 ⟨"A", "B", "2030-01-05", "2030-01-10"⟩ =
      ⟨true, ⟨none, none, none, none⟩⟩ :=
  ⟨by decide, by decide,
    (validateBookingForm_roundtrip 20737 21919 (by decide) (by decide)).1,
    (validateBookingForm_roundtrip 20737 21919 (by decide) (by decide)).2.1⟩

/-! ### C9: session-controller result semantics -/

/-- C9: every mutating controller operation is a total function into a
result structure (it never rethrows): on a service failure it returns
success false carrying the rejection message and leaves the local
collection untouched; on success it returns success true and applies the
returned mutation locally (append, remove or replace). -/
theorem hook_ops_result_semantics (fail : Bool) (store all : List Booking)
    (d : Draft) (id newStatus : String) (u : Updates) :
    (∀ e, (createBooking fail store d).2 = .error e →
        (hookAddBooking fail store all d).2 = (all, ⟨false, some e, none⟩)) ∧
    (∀ b, (createBooking fail store d).2 = .ok b →
        (hookAddBooking fail store all d).2 = (all ++ [b], ⟨true, none, some b⟩)) ∧
    (∀ e, (deleteBooking fail store id).2 = .error e →
        (hookDeleteBooking fail store all id).2 = (all, ⟨false, some e, none⟩)) ∧
    ((deleteBooking fail store id).2 = .ok () →
        (hookDeleteBooking fail store all id).2 =
          (all.filter (fun b => b.id ≠ id), ⟨true, none, none⟩)) ∧
    (∀ e, (updateBooking fail store id ⟨none, none, some newStatus, none, none⟩).2 =
          .error e →
        (hookUpdateBookingStatus fail store all id newStatus).2 =
          (all, ⟨false, some e, none⟩)) ∧
    (∀ b, (updateBooking fail store id ⟨none, none, some newStatus, none, none⟩).2 =
          .ok b →
        (hookUpdateBookingStatus fail store all id newStatus).2 =
          (all.map fun x => if x.id = id then b else x, ⟨true, none, some b⟩)) ∧
    (∀ e, (updateBooking fail store id u).2 = .error e →
        (hookUpdateBooking fail store all id u).2 = (all, ⟨false, some e, none⟩)) ∧
    (∀ b, (updateBooking fail store id u).2 = .ok b →
        (hookUpdateBooking fail store all id u).2 =
          (all.map fun x => if x.id = id then b else x, ⟨true, none, some b⟩)) := by
  refine ⟨?_, ?_, ?_, ?_, ?_, ?_, ?_, ?_⟩
  · intro e he
    unfold hookAddBooking
    rcases hc : createBooking fail store d with ⟨s', r⟩
    rw [hc] at he
    cases r with
    | ok b => simp at he
    | error e' =>
      simp at he
      subst he
      rfl
  · intro b hb
    unfold hookAddBooking
    rcases hc : createBooking fail store d with ⟨s', r⟩
    rw [hc] at hb
    cases r with
    | ok b' =>
      simp at hb
      subst hb
      rfl
    | error e' => simp at hb
  · intro e he
    unfold hookDeleteBooking
    rcases hc : deleteBooking fail store id with ⟨s', r⟩
    rw [hc] at he
    cases r with
    | ok v => simp at he
    | error e' =>
      simp at he
      subst he
      rfl
  · intro hb
    unfold hookDeleteBooking
    rcases hc : deleteBooking fail store id with ⟨s', r⟩
    rw [hc] at hb
    cases r with
    | ok v => rfl
    | error e' => simp at hb
  · intro e he
    unfold hookUpdateBookingStatus
    rcases hc : updateBooking fail store id ⟨none, none, some newStatus, none, none⟩
      with ⟨s', r⟩
    rw [hc] at he
    cases r with
    | ok b => simp at he
    | error e' =>
      simp at he
      subst he
      rfl
  · intro b hb
    unfold hookUpdateBookingStatus
    rcases hc : updateBooking fail store id ⟨none, none, some newStatus, none, none⟩
      with ⟨s', r⟩
    rw [hc] at hb
    cases r with
    | ok b' =>
      simp at hb
      subst hb
      rfl
    | error e' => simp at hb
  · intro e he
    unfold hookUpdateBooking
    rcases hc : updateBooking fail store id u with ⟨s', r⟩
    rw [hc] at he
    cases r with
    | ok b => simp at he
    | error e' =>
      simp at he
      subst he
      rfl
  · intro b hb
    unfold hookUpdateBooking
    rcases hc : updateBooking fail store id u with ⟨s', r⟩
    rw [hc] at hb
    cases r with
    | ok b' =>
      simp at hb
      subst hb
      rfl
    | error e' => simp at hb

/-- Witness for C9: concrete failing and succeeding controller calls on
the seed fixture. -/
theorem hook_ops_result_semantics_witness :
    (hookAddBooking true mockBookings mockBookings
        ⟨"Acme Wind", "Nordic Star", none, "2026-05-01", "2026-05-02"⟩).2 =
      (mockBookings,
        ⟨false, some "Failed to create booking. Please try again.", none⟩) ∧
    (hookDeleteBooking false mockBookings mockBookings "BK-1003").2 =
      (mockBookings.filter (fun b => b.id ≠ "BK-1003"), ⟨true, none, none⟩) :=
  ⟨(hook_ops_result_semantics true mockBookings mockBookings
      ⟨"Acme Wind", "Nordic Star", none, "2026-05-01", "2026-05-02"⟩
      "BK-1003" "pending" ⟨none, none, none, none, none⟩).1
      "Failed to create booking. Please try again." rfl,
   (hook_ops_result_semantics false mockBookings mockBookings
      ⟨"Acme Wind", "Nordic Star", none, "2026-05-01", "2026-05-02"⟩
      "BK-1003" "pending" ⟨none, none, none, none, none⟩).2.2.2.1 rfl⟩

/-! ### C3: not-found determinism and failure leaves the store unchanged -/

/-- C3: for an id absent from the stored collection, update and delete
deterministically reject with "Booking not found"; and on every error
path (the simulated network failure as well as not-found) every service
operation returns the store completely unchanged. -/
theorem service_notFound_and_failure_preserves_store
    (store : List Booking) (id : String) (u : Updates) (d : Draft) (fail : Bool) :
    (id ∉ store.map Booking.id →
      updateBooking false store id u = (store, .error "Booking not found") ∧
      deleteBooking false store id = (store, .error "Booking not found")) ∧
    (∀ e, (updateBooking fail store id u).2 = .error e →
      (updateBooking fail store id u).1 = store) ∧
    (∀ e, (deleteBooking fail store id).2 = .error e →
      (deleteBooking fail store id).1 = store) ∧
    (∀ e, (createBooking fail store d).2 = .error e →
      (createBooking fail store d).1 = store) ∧
    (∀ e, (getBookings fail store).2 = .error e →
      (getBookings fail store).1 = store) := by
  refine ⟨fun h => ⟨?_, ?_⟩, ?_, ?_, ?_, ?_⟩
  · have hf : store.findIdx? (fun b => b.id = id) = none := by
      rw [List.findIdx?_eq_none_iff]
      intro x hx
      simp only [decide_eq_false_iff_not]
      intro hxx
      exact h (hxx ▸ List.mem_map_of_mem Booking.id hx)
    simp [updateBooking, hf]
  · have hall : ∀ a ∈ store, ¬a.id = id :=
      fun a ha hax => h (hax ▸ List.mem_map_of_mem Booking.id ha)
    have hfil : store.filter (fun b => b.id ≠ id) = store :=
      List.filter_eq_self.mpr (fun a ha => by simpa using hall a ha)
    have hlen : (store.filter (fun b => b.id ≠ id)).length = store.length := by
      rw [hfil]
    simp only [deleteBooking, Bool.false_eq_true, if_false]
    rw [if_pos hlen]
  · intro e he
    cases fail
    case true => rfl
    case false =>
      cases hidx : store.findIdx? (fun b => b.id = id) with
      | none => simp [updateBooking, hidx]
      | some i =>
        cases hg : store[i]? with
        | none => simp [updateBooking, hidx, hg]
        | some b => simp [updateBooking, hidx, hg] at he
  · intro e he
    cases fail
    case true => rfl
    case false =>
      by_cases hlen : (store.filter (fun b => b.id ≠ id)).length = store.length
      · simp only [deleteBooking, Bool.false_eq_true, if_false]
        rw [if_pos hlen]
      · simp only [deleteBooking, Bool.false_eq_true, if_false] at he
        rw [if_neg hlen] at he
        simp at he
  · intro e he
    cases fail
    case true => rfl
    case false => simp [createBooking] at he
  · intro e he
    cases fail
    case true => rfl
    case false => simp [getBookings] at he

/-- Witness for C3: updating or deleting the absent id BK-9999 on the
seed fixture rejects with the not-found message and returns the store
unchanged; a simulated network failure of update also leaves it
unchanged. -/
theorem service_notFound_preserves_store_witness :
    updateBooking false mockBookings "BK-9999" ⟨none, none, some "confirmed", none, none⟩ =
      (mockBookings, .error "Booking not found") ∧
    deleteBooking false mockBookings "BK-9999" =
      (mockBookings, .error "Booking not found") ∧
    (updateBooking true mockBookings "BK-9999"
        ⟨none, none, some "confirmed", none, none⟩).1 = mockBookings :=
  ⟨((service_notFound_and_failure_preserves_store mockBookings "BK-9999"
      ⟨none, none, some "confirmed", none, none⟩
      ⟨"", "", none, "", ""⟩ false).1 (by decide)).1,
   ((service_notFound_and_failure_preserves_store mockBookings "BK-9999"
      ⟨none, none, some "confirmed", none, none⟩
      ⟨"", "", none, "", ""⟩ false).1 (by decide)).2,
   (service_notFound_and_failure_preserves_store mockBookings "BK-9999"
      ⟨none, none, some "confirmed", none, none⟩
      ⟨"", "", none, "", ""⟩ true).2.1
      "Failed to update booking. Please try again." rfl⟩

/-! ### C10: falsy status defaults to pending -/

/-- C10: the record built by createBooking stores statusOrPending of the
draft status, which is pending for an absent status, pending for the
falsy empty string, and the draft value itself for any truthy status. -/
theorem createBooking_status_default (store : List Booking) (d : Draft) :
    (∃ r, (createBooking false store d).2 = .ok r ∧
      r.status = statusOrPending d.status) ∧
    (d.status = none → statusOrPending d.status = "pending") ∧
    (d.status = some "" → statusOrPending d.status = "pending") ∧
    (∀ s, d.status = some s → s ≠ "" → statusOrPending d.status = s) := by
  refine ⟨⟨_, rfl, rfl⟩, fun h => by simp [h, statusOrPending],
    fun h => by simp [h, statusOrPending],
    fun s h hs => by simp [h, statusOrPending, hs]⟩

/-- Witness for C10: an empty-string status and an absent status become
pending, a concrete truthy status is stored unchanged. -/
theorem createBooking_status_default_witness :
    statusOrPending (some "") = "pending" ∧
    statusOrPending none = "pending" ∧
    statusOrPending (some "confirmed") = "confirmed" :=
  ⟨(createBooking_status_default mockBookings
      ⟨"A", "B", some "", "2026-05-01", "2026-05-02"⟩).2.2.1 rfl,
   (createBooking_status_default mockBookings
      ⟨"A", "B", none, "2026-05-01", "2026-05-02"⟩).2.1 rfl,
   (createBooking_status_default mockBookings
      ⟨"A", "B", some "confirmed", "2026-05-01", "2026-05-02"⟩).2.2.2
      "confirmed" rfl (by decide)⟩

/-! ### C4: id allocation -/

/-- The id-allocation base exactly as the specification words it: the
maximum of the floor 1000 and the numeric suffixes of all existing ids
(an id without a numeric suffix contributes nothing). -/
def specNextBase (store : List Booking) : Nat :=
  Nat.max 1000 ((store.map (fun b => (jsSuffix b.id).getD 0)).foldr Nat.max 0)

theorem foldl_max_eq_foldr (l : List Nat) (a : Nat) :
    l.foldl Nat.max a = Nat.max a (l.foldr Nat.max 0) := by
  induction l generalizing a with
  | nil => simp
  | cons x t ih =>
    simp only [List.foldl_cons, List.foldr_cons, ih (Nat.max a x)]
    exact Nat.max_assoc a x (t.foldr Nat.max 0)

theorem computeMaxId_eq_specNextBase (store : List Booking) :
    computeMaxId store = specNextBase store := by
  have h1 : computeMaxId store =
      (store.map (fun b => (jsSuffix b.id).getD 0)).foldl Nat.max 1000 := by
    rw [List.foldl_map]
    unfold computeMaxId
    congr 1
    funext m b
    cases h : jsSuffix b.id with
    | none => simp
    | some n =>
      show (if n > m then n else m) = Nat.max m n
      rcases Nat.lt_or_ge m n with hlt | hge
      · rw [if_pos hlt]
        exact (Nat.max_eq_right (Nat.le_of_lt hlt)).symm
      · rw [if_neg (by omega)]
        exact (Nat.max_eq_left hge).symm
  rw [h1, foldl_max_eq_foldr]
  rfl

theorem foldr_max_perm {l l' : List Nat} (h : l.Perm l') :
    l.foldr Nat.max 0 = l'.foldr Nat.max 0 := by
  induction h with
  | nil => rfl
  | cons x _ ih => simp [ih]
  | swap x y t => exact Nat.max_left_comm y x (t.foldr Nat.max 0)
  | trans _ _ ih1 ih2 => exact ih1.trans ih2

theorem specNextBase_perm {store store' : List Booking} (h : store.Perm store') :
    specNextBase store = specNextBase store' := by
  unfold specNextBase
  rw [foldr_max_perm (h.map _)]

/-- C4: a successful create appends, persists and returns a record whose
id is BK-(n+1) for n the maximum of 1000 and the existing numeric id
suffixes; n is invariant under reordering of the collection; and when
that maximum is 1006 the allocated id is BK-1007.  The record's status
falls back to pending when the draft gives none. -/
theorem createBooking_id_allocation (store : List Booking) (d : Draft) :
    computeMaxId store = specNextBase store ∧
    createBooking false store d =
      (store ++ [⟨"BK-" ++ natStr (specNextBase store + 1), d.customer, d.vessel,
          statusOrPending d.status, d.startDate, d.endDate⟩],
        .ok ⟨"BK-" ++ natStr (specNextBase store + 1), d.customer, d.vessel,
          statusOrPending d.status, d.startDate, d.endDate⟩) ∧
    (∀ store', store.Perm store' → computeMaxId store = computeMaxId store') ∧
    (specNextBase store = 1006 →
      ∃ r, (createBooking false store d).2 = .ok r ∧ r.id = "BK-1007") := by
  refine ⟨computeMaxId_eq_specNextBase store, ?_, ?_, ?_⟩
  · rw [show specNextBase store = computeMaxId store from
      (computeMaxId_eq_specNextBase store).symm]
    rfl
  · intro store' hp
    rw [computeMaxId_eq_specNextBase, computeMaxId_eq_specNextBase,
      specNextBase_perm hp]
  · intro h6
    refine ⟨_, rfl, ?_⟩
    show "BK-" ++ natStr (computeMaxId store + 1) = "BK-1007"
    rw [computeMaxId_eq_specNextBase, h6]
    have hnd : natDigits (1006 + 1) = ['1', '0', '0', '7'] := by
      simp [natDigits, natDigitsAux, digitChar]
    unfold natStr
    rw [hnd]
    decide

/-- Witness for C4: on a two-record store holding BK-1006 and BK-1003 in
either order, the allocation base is 1006 and the new id is BK-1007. -/
theorem createBooking_id_allocation_witness :
    computeMaxId [⟨"BK-1003", "c", "v", "pending", "2026-01-01", "2026-01-02"⟩,
        ⟨"BK-1006", "c", "v", "pending", "2026-01-01", "2026-01-02"⟩] =
      computeMaxId [⟨"BK-1006", "c", "v", "pending", "2026-01-01", "2026-01-02"⟩,
        ⟨"BK-1003", "c", "v", "pending", "2026-01-01", "2026-01-02"⟩] ∧
    (∃ r, (createBooking false
        [⟨"BK-1003", "c", "v", "pending", "2026-01-01", "2026-01-02"⟩,
         ⟨"BK-1006", "c", "v", "pending", "2026-01-01", "2026-01-02"⟩]
        ⟨"A", "B", none, "2026-05-01", "2026-05-02"⟩).2 = .ok r ∧
      r.id = "BK-1007") :=
  ⟨(createBooking_id_allocation
      [⟨"BK-1003", "c", "v", "pending", "2026-01-01", "2026-01-02"⟩,
       ⟨"BK-1006", "c", "v", "pending", "2026-01-01", "2026-01-02"⟩]
      ⟨"A", "B", none, "2026-05-01", "2026-05-02"⟩).2.2.1
      [⟨"BK-1006", "c", "v", "pending", "2026-01-01", "2026-01-02"⟩,
       ⟨"BK-1003", "c", "v", "pending", "2026-01-01", "2026-01-02"⟩]
      (List.Perm.swap _ _ _),
   (createBooking_id_allocation
      [⟨"BK-1003", "c", "v", "pending", "2026-01-01", "2026-01-02"⟩,
       ⟨"BK-1006", "c", "v", "pending", "2026-01-01", "2026-01-02"⟩]
      ⟨"A", "B", none, "2026-05-01", "2026-05-02"⟩).2.2.2 (by decide)⟩

/-! ### C5: id uniqueness is preserved by every successful operation -/

theorem digitChar_isDigit {k : Nat} (h : k < 10) : (digitChar k).isDigit = true := by
  interval_cases k <;> decide

theorem digitChar_toNat {k : Nat} (h : k < 10) : (digitChar k).toNat = 48 + k := by
  interval_cases k <;> decide

theorem natDigitsAux_append (n : Nat) (acc : List Char) :
    natDigitsAux n acc = natDigits n ++ acc := by
  induction n using Nat.strong_induction_on generalizing acc with
  | _ n ih =>
    by_cases h : n < 10
    · conv_lhs => rw [natDigitsAux]
      conv_rhs => rw [natDigits, natDigitsAux]
      simp [h]
    · conv_lhs => rw [natDigitsAux]
      conv_rhs => rw [natDigits, natDigitsAux]
      simp only [h, if_false]
      rw [ih (n / 10) (Nat.div_lt_self (by omega) (by omega)),
        ih (n / 10) (Nat.div_lt_self (by omega) (by omega))]
      simp

theorem natDigits_eq (n : Nat) :
    natDigits n = if n < 10 then [digitChar n]
      else natDigits (n / 10) ++ [digitChar (n % 10)] := by
  conv_lhs => rw [natDigits, natDigitsAux]
  by_cases h : n < 10
  · simp [h]
  · simp only [h, if_false]
    rw [natDigitsAux_append]

theorem natDigits_all_digits (n : Nat) : ∀ c ∈ natDigits n, c.isDigit = true := by
  induction n using Nat.strong_induction_on with
  | _ n ih =>
    rw [natDigits_eq]
    by_cases h : n < 10
    · rw [if_pos h]
      intro c hc
      rw [List.mem_singleton.mp hc]
      exact digitChar_isDigit h
    · rw [if_neg h]
      intro c hc
      rcases List.mem_append.mp hc with hc | hc
      · exact ih (n / 10) (Nat.div_lt_self (by omega) (by omega)) c hc
      · rw [List.mem_singleton.mp hc]
        exact digitChar_isDigit (Nat.mod_lt n (by omega))

theorem digitsVal_append (l1 l2 : List Char) :
    digitsVal (l1 ++ l2) =
      l2.foldl (fun a c => 10 * a + (c.toNat - 48)) (digitsVal l1) := by
  simp [digitsVal, List.foldl_append]

theorem digitsVal_natDigits (n : Nat) : digitsVal (natDigits n) = n := by
  induction n using Nat.strong_induction_on with
  | _ n ih =>
    rw [natDigits_eq]
    by_cases h : n < 10
    · rw [if_pos h]
      have := digitChar_toNat h
      simp [digitsVal]
      omega
    · rw [if_neg h, digitsVal_append]
      rw [ih (n / 10) (Nat.div_lt_self (by omega) (by omega))]
      have := digitChar_toNat (Nat.mod_lt n (show 0 < 10 by omega))
      simp
      omega

theorem natDigits_ne_nil (n : Nat) : natDigits n ≠ [] := by
  rw [natDigits_eq]
  by_cases h : n < 10 <;> simp [h]

theorem jsParseInt_natDigits (n : Nat) : jsParseInt (natDigits n) = some n := by
  have htw : (natDigits n).takeWhile Char.isDigit = natDigits n :=
    List.takeWhile_eq_self_iff.mpr (natDigits_all_digits n)
  simp only [jsParseInt, htw]
  rw [if_neg (by simp [List.isEmpty_iff, natDigits_ne_nil n])]
  rw [digitsVal_natDigits]

theorem splitOnChar_cons (c x : Char) (xs : List Char) :
    splitOnChar c (x :: xs) =
      if x = c then [] :: splitOnChar c xs
      else
        match splitOnChar c xs with
        | [] => [[x]]
        | h :: t => (x :: h) :: t := rfl

theorem splitOnChar_no_sep {c : Char} {l : List Char} (h : ∀ x ∈ l, x ≠ c) :
    splitOnChar c l = [l] := by
  induction l with
  | nil => rfl
  | cons x t ih =>
    rw [splitOnChar_cons, if_neg (h x (List.mem_cons_self x t)),
      ih (fun y hy => h y (List.mem_cons_of_mem x hy))]

theorem jsSuffix_BK (n : Nat) : jsSuffix ("BK-" ++ natStr n) = some n := by
  have hdata : ("BK-" ++ natStr n).data = 'B' :: 'K' :: '-' :: natDigits n := by
    rw [String.data_append]
    rfl
  have hnosep : ∀ x ∈ natDigits n, x ≠ '-' := by
    intro x hx heq
    have hd := natDigits_all_digits n x hx
    rw [heq] at hd
    simp at hd
  have hA : splitOnChar '-' ('-' :: natDigits n) = [] :: [natDigits n] := by
    rw [splitOnChar_cons, if_pos rfl, splitOnChar_no_sep hnosep]
  have hB : splitOnChar '-' ('K' :: '-' :: natDigits n) = ['K'] :: [natDigits n] := by
    rw [splitOnChar_cons, if_neg (by decide), hA]
  have hC : splitOnChar '-' ('B' :: 'K' :: '-' :: natDigits n) =
      ['B', 'K'] :: [natDigits n] := by
    rw [splitOnChar_cons, if_neg (by decide), hB]
  unfold jsSuffix
  rw [hdata, hC]
  simp [jsParseInt_natDigits n]

theorem le_foldr_max {x : Nat} {l : List Nat} (h : x ∈ l) : x ≤ l.foldr Nat.max 0 := by
  induction l with
  | nil => cases h
  | cons y t ih =>
    rcases List.mem_cons.mp h with rfl | h'
    · exact Nat.le_max_left _ _
    · exact Nat.le_trans (ih h') (Nat.le_max_right _ _)

theorem suffix_le_computeMaxId {store : List Booking} {b : Booking} {k : Nat}
    (hb : b ∈ store) (hk : jsSuffix b.id = some k) : k ≤ computeMaxId store := by
  rw [computeMaxId_eq_specNextBase]
  unfold specNextBase
  have hmem : k ∈ store.map (fun b => (jsSuffix b.id).getD 0) :=
    List.mem_map.mpr ⟨b, hb, by rw [hk]; rfl⟩
  exact Nat.le_trans (le_foldr_max hmem) (Nat.le_max_right _ _)

theorem newId_not_mem (store : List Booking) :
    ("BK-" ++ natStr (computeMaxId store + 1)) ∉ store.map Booking.id := by
  intro hmem
  obtain ⟨b, hb, hid⟩ := List.mem_map.mp hmem
  have hsuf : jsSuffix b.id = some (computeMaxId store + 1) := by
    rw [hid]
    exact jsSuffix_BK _
  have := suffix_le_computeMaxId hb hsuf
  omega

theorem map_id_set_self (store : List Booking) (i : Nat) (b r : Booking)
    (hg : store[i]? = some b) (hid : r.id = b.id) :
    (store.set i r).map Booking.id = store.map Booking.id := by
  induction store generalizing i with
  | nil => simp at hg
  | cons x t ih =>
    cases i with
    | zero =>
      have hxb : x = b := by simpa using hg
      subst hxb
      simp [hid]
    | succ j =>
      have hg' : t[j]? = some b := by simpa using hg
      show (x :: t.set j r).map Booking.id = (x :: t).map Booking.id
      simp only [List.map_cons]
      rw [ih j hg']

/-- C5: starting from a collection with pairwise-distinct ids, every
successful create, update or delete leaves the stored collection with
pairwise-distinct ids. -/
theorem id_uniqueness_invariant (store : List Booking)
    (h : (store.map Booking.id).Nodup) :
    (∀ (fail : Bool) (d : Draft) (store' : List Booking) (r : Booking),
      createBooking fail store d = (store', .ok r) →
      (store'.map Booking.id).Nodup) ∧
    (∀ (fail : Bool) (id : String) (u : Updates) (store' : List Booking) (r : Booking),
      updateBooking fail store id u = (store', .ok r) →
      (store'.map Booking.id).Nodup) ∧
    (∀ (fail : Bool) (id : String) (store' : List Booking),
      deleteBooking fail store id = (store', .ok ()) →
      (store'.map Booking.id).Nodup) := by
  refine ⟨?_, ?_, ?_⟩
  · intro fail d store' r heq
    cases fail
    case true => simp [createBooking] at heq
    case false =>
      simp only [createBooking, Bool.false_eq_true, if_false, Prod.mk.injEq] at heq
      obtain ⟨h1, _⟩ := heq
      subst h1
      rw [List.map_append, List.nodup_append]
      refine ⟨h, by simp, ?_⟩
      intro a ha hb
      simp only [List.map_cons, List.map_nil, List.mem_singleton] at hb
      subst hb
      exact newId_not_mem store ha
  · intro fail id u store' r heq
    cases fail
    case true => simp [updateBooking] at heq
    case false =>
      cases hidx : store.findIdx? (fun b => b.id = id) with
      | none => simp [updateBooking, hidx] at heq
      | some i =>
        cases hg : store[i]? with
        | none => simp [updateBooking, hidx, hg] at heq
        | some b =>
          simp only [updateBooking, Bool.false_eq_true, if_false, hidx, hg,
            Prod.mk.injEq] at heq
          obtain ⟨h1, _⟩ := heq
          subst h1
          rw [map_id_set_self store i b (mergeBooking b u) hg rfl]
          exact h
  · intro fail id store' heq
    cases fail
    case true => simp [deleteBooking] at heq
    case false =>
      by_cases hlen : (store.filter (fun b => b.id ≠ id)).length = store.length
      · simp only [deleteBooking, Bool.false_eq_true, if_false] at heq
        rw [if_pos hlen] at heq
        simp at heq
      · simp only [deleteBooking, Bool.false_eq_true, if_false] at heq
        rw [if_neg hlen] at heq
        simp only [Prod.mk.injEq] at heq
        obtain ⟨h1, _⟩ := heq
        subst h1
        exact List.Nodup.sublist
          (List.Sublist.map Booking.id (List.filter_sublist store)) h

/-- Witness for C5: deleting BK-1003 from the seed fixture keeps the
stored ids pairwise distinct. -/
theorem id_uniqueness_invariant_witness :
    ((mockBookings.filter (fun b => b.id ≠ "BK-1003")).map Booking.id).Nodup :=
  (id_uniqueness_invariant mockBookings (by decide)).2.2 false "BK-1003" _ rfl

/-! ### C7: sort stability and sort reset -/

theorem sublist_orderedInsert (lt : Booking → Booking → Bool) (x : Booking)
    (l : List Booking) : l.Sublist (orderedInsert lt x l) := by
  induction l with
  | nil => simp [orderedInsert]
  | cons y t ih =>
    simp only [orderedInsert]
    by_cases h : lt y x = true
    · rw [if_pos h]
      exact List.Sublist.cons₂ y ih
    · rw [if_neg h]
      exact List.Sublist.cons x (List.Sublist.refl (y :: t))

theorem orderedInsert_pair (lt : Booking → Booking → Bool) (x y : Booking)
    (l : List Booking) (hy : y ∈ l) (hlt : lt y x = false) :
    [x, y].Sublist (orderedInsert lt x l) := by
  induction l with
  | nil => cases hy
  | cons w t ih =>
    simp only [orderedInsert]
    by_cases h : lt w x = true
    · rw [if_pos h]
      rcases List.mem_cons.mp hy with rfl | hy'
      · simp [h] at hlt
      · exact List.Sublist.cons w (ih hy')
    · rw [if_neg h]
      exact List.Sublist.cons₂ x (List.singleton_sublist.mpr hy)

theorem orderedInsert_perm (lt : Booking → Booking → Bool) (x : Booking)
    (l : List Booking) : (orderedInsert lt x l).Perm (x :: l) := by
  induction l with
  | nil => exact List.Perm.refl _
  | cons y t ih =>
    simp only [orderedInsert]
    by_cases h : lt y x = true
    · rw [if_pos h]
      exact (ih.cons y).trans (List.Perm.swap x y t)
    · rw [if_neg h]

theorem insSort_perm (lt : Booking → Booking → Bool) (l : List Booking) :
    (insSort lt l).Perm l := by
  induction l with
  | nil => exact List.Perm.refl _
  | cons x t ih =>
    exact (orderedInsert_perm lt x (insSort lt t)).trans (ih.cons x)

theorem insSort_stable_pair (lt : Booking → Booking → Bool) (x y : Booking)
    (l : List Booking) (hxy : lt y x = false) (hsub : [x, y].Sublist l) :
    [x, y].Sublist (insSort lt l) := by
  induction l with
  | nil => simp at hsub
  | cons z t ih =>
    cases hsub with
    | cons a h' =>
      exact (ih h').trans (sublist_orderedInsert lt z (insSort lt t))
    | cons₂ a h' =>
      have hy : y ∈ insSort lt t :=
        (insSort_perm lt t).mem_iff.mpr (List.singleton_sublist.mp h')
      exact orderedInsert_pair lt x y _ hy hxy

/-- C7: the sort engine is stable — two bookings whose column values
compare equal keep their original relative order in the sorted output,
which is a permutation of the input — and a null column or direction
(the reset state) returns the collection in original insertion order. -/
theorem sortedBookings_stable_and_reset (bs : List Booking) (cfg : SortConfig) :
    (cfg.column = none ∨ cfg.direction = none → sortedBookings cfg bs = bs) ∧
    (sortedBookings cfg bs).Perm bs ∧
    (∀ (c : Column) (dir : Direction) (x y : Booking),
      colEq c x y = true → [x, y].Sublist bs →
      [x, y].Sublist (sortedBookings ⟨some c, some dir⟩ bs)) := by
  refine ⟨?_, ?_, ?_⟩
  · intro h
    rcases hcol : cfg.column with _ | c
    · simp [sortedBookings, hcol]
    · rcases hdir : cfg.direction with _ | dir
      · simp [sortedBookings, hcol, hdir]
      · rcases h with h | h
        · rw [hcol] at h
          cases h
        · rw [hdir] at h
          cases h
  · rcases hcol : cfg.column with _ | c
    · have : sortedBookings cfg bs = bs := by simp [sortedBookings, hcol]
      rw [this]
    · rcases hdir : cfg.direction with _ | dir
      · have : sortedBookings cfg bs = bs := by simp [sortedBookings, hcol, hdir]
        rw [this]
      · have : sortedBookings cfg bs = insSort (cmpBefore c dir) bs := by
          simp [sortedBookings, hcol, hdir]
        rw [this]
        exact insSort_perm (cmpBefore c dir) bs
  · intro c dir x y hceq hsub
    have hpair : colLt c x y = false ∧ colLt c y x = false := by
      simpa [colEq] using hceq
    obtain ⟨h1, h2⟩ := hpair
    show [x, y].Sublist (insSort (cmpBefore c dir) bs)
    apply insSort_stable_pair
    · cases dir <;> simp [cmpBefore, h1, h2]
    · exact hsub

/-- Witness for C7: sorting the seed fixture by status keeps the two
pending records BK-1002 and BK-1005 in their original relative order,
and the reset configuration returns the fixture as is. -/
theorem sortedBookings_stable_and_reset_witness :
    sortedBookings ⟨none, none⟩ mockBookings = mockBookings ∧
    [⟨"BK-1002", "BlueWave", "Sea Finch", "pending", "2026-02-03", "2026-02-05"⟩,
     ⟨"BK-1005", "Deep Sea Logistics", "Blue Horizon", "pending",
       "2026-03-01", "2026-03-10"⟩].Sublist
      (sortedBookings ⟨some .status, some .asc⟩ mockBookings) :=
  ⟨(sortedBookings_stable_and_reset mockBookings ⟨none, none⟩).1 (Or.inl rfl),
   (sortedBookings_stable_and_reset mockBookings ⟨some .status, some .asc⟩).2.2
     .status .asc _ _ (by decide) (by decide)⟩
